import Mathlib

/-!
Shallow embedding of the command distribution and session subsystem of the
canvas sketchpad server (`src/index.ts`).

Modelling conventions:

- A JavaScript `Map` is modelled as an association list `List (String × α)`
  (`JMap` below).  `JMap.set` replaces the first entry with the given key in
  place and appends a fresh entry otherwise, exactly as `Map.set` keeps the
  original insertion position of an existing key; `JMap.delete` removes the
  entry; `JMap.get` returns the first binding.  States reachable through the
  server operations never carry duplicate keys (ids come from `randomUUID`),
  matching the unique-key discipline of a real `Map`.
- Iterating a `Map` while deleting only the key currently being visited
  (the only mutation the server performs during iteration) visits exactly the
  entries present when the loop started, so every such loop is embedded as a
  recursion over the list of entries taken at the start of the call.
- `Date.now()` and `randomUUID()` are impure inputs; the embedding takes the
  current time and the freshly generated id as explicit arguments.
- A WebSocket client is summarised by two booleans: `wsOpen` models
  `ws.readyState === WebSocket.OPEN` at send time and `wsSendOk` models
  whether `ws.send` returns normally rather than throwing.
- Messages pushed to clients are collected in an explicit `sent` log so that
  delivery claims are observable; the session `transport` handle is an opaque
  external resource and is omitted from the `Session` record.
- `if (error)` on an optional string is JavaScript truthiness: it rejects
  both `undefined` and the empty string; the embedding tests exactly that.
-/

/-- The `status` field of a `CanvasCommand` in `src/index.ts`. -/
inductive Status where
  | pending
  | sent
  | executed
  | error
deriving DecidableEq, Repr

/-- The `CanvasCommand` record of `src/index.ts` (the command ledger entry). -/
structure CanvasCommand where
  id : String
  commands : String
  timestamp : Nat
  status : Status
  sessionId : Option String
  error : Option String
  clientIds : List String
deriving DecidableEq, Repr

/-- The `WebSocketClient` record of `src/index.ts`.  The live socket handle is
summarised by the two behaviour flags described in the file header. -/
structure WSClient where
  id : String
  wsOpen : Bool
  wsSendOk : Bool
  sessionId : Option String
  connectedAt : Nat
deriving DecidableEq, Repr

/-- The `Session` record of `src/index.ts`, without the opaque `transport`
handle. -/
structure Session where
  id : String
  createdAt : Nat
  lastActivity : Nat
  clientIds : List String
deriving DecidableEq, Repr

/-- The payload of a `canvas-command` push message (`broadcastCommand`). -/
structure PushMessage where
  id : String
  commands : String
  timestamp : Nat
deriving DecidableEq, Repr

/-- The `consume-ack` reply sent by the `command-consumed` branch of the
WebSocket message handler. -/
structure ConsumeAck where
  type : String
  commandId : String
  success : Bool
deriving DecidableEq, Repr

namespace JMap

/-- First binding of a key in an association list (`Map.get`). -/
def get {α : Type} : List (String × α) → String → Option α
  | [], _ => none
  | (k, v) :: rest, key => if k = key then some v else get rest key

/-- `Map.set`: replace the first binding of the key in place, appending a new
binding when the key is absent. -/
def set {α : Type} : List (String × α) → String → α → List (String × α)
  | [], key, value => [(key, value)]
  | (k, v) :: rest, key, value =>
      if k = key then (key, value) :: rest else (k, v) :: set rest key value

/-- `Map.delete`: drop every binding of the key. -/
def del {α : Type} (m : List (String × α)) (key : String) : List (String × α) :=
  m.filter fun p => p.1 ≠ key

end JMap

/-- The combined mutable state of the `CommandManager` and `SessionManager`
singletons in `src/index.ts`. -/
structure ServerState where
  commands : List (String × CanvasCommand)
  wsClients : List (String × WSClient)
  sessions : List (String × Session)
deriving DecidableEq, Repr

/-- The empty state both managers start from. -/
def ServerState.empty : ServerState := ⟨[], [], []⟩

/-- Status of a ledger entry, as observed through `commands.get`. -/
def statusOf (st : ServerState) (commandId : String) : Option Status :=
  (JMap.get st.commands commandId).map (·.status)

/-- `clientIds` of a ledger entry, as observed through `commands.get`. -/
def clientIdsOf (st : ServerState) (commandId : String) : Option (List String) :=
  (JMap.get st.commands commandId).map (·.clientIds)

/-- Result of one `broadcastCommand` call: the updated server state, the
command object after its in-place `clientIds` mutations, the returned
`sentCount`, and the log of `(clientId, message)` deliveries. -/
structure BroadcastResult where
  state : ServerState
  command : CanvasCommand
  sentCount : Nat
  sent : List (String × PushMessage)
deriving DecidableEq, Repr

/-- The `for (const [clientId, client] of this.wsClients)` loop of
`broadcastCommand`, recursing over the entries present at the start of the
call (see the file header); `wsClients` is the live registry the loop deletes
failed clients from. -/
def broadcastLoop (message : PushMessage) :
    List (String × WSClient) → CanvasCommand → List (String × WSClient) →
    Nat → List (String × PushMessage) →
    CanvasCommand × List (String × WSClient) × Nat × List (String × PushMessage)
  | [], command, wsClients, sentCount, sent => (command, wsClients, sentCount, sent)
  | (clientId, client) :: rest, command, wsClients, sentCount, sent =>
      if client.wsOpen then
        if client.wsSendOk then
          broadcastLoop message rest
            { command with clientIds := command.clientIds ++ [clientId] }
            wsClients (sentCount + 1) (sent ++ [(clientId, message)])
        else
          broadcastLoop message rest command (JMap.del wsClients clientId) sentCount sent
      else
        broadcastLoop message rest command (JMap.del wsClients clientId) sentCount sent

/-- `CommandManager.broadcastCommand`.  The command argument is the ledger
entry object itself (callers always pass a map-resident object), so the
in-place `clientIds` pushes are reflected by writing the threaded value back
under its id. -/
def broadcastCommand (st : ServerState) (command : CanvasCommand) : BroadcastResult :=
  let message : PushMessage := ⟨command.id, command.commands, command.timestamp⟩
  let r := broadcastLoop message st.wsClients command st.wsClients 0 []
  { state := { st with
      wsClients := r.2.1
      commands := JMap.set st.commands command.id r.1 }
    command := r.1
    sentCount := r.2.2.1
    sent := r.2.2.2 }

/-- Result of `addCommand`: the updated state, the returned id, and the push
log of the immediate broadcast. -/
structure AddResult where
  state : ServerState
  id : String
  sent : List (String × PushMessage)
deriving DecidableEq, Repr

/-- `CommandManager.addCommand`; `freshId` is the `randomUUID()` result and
`now` is `Date.now()`. -/
def addCommand (st : ServerState) (freshId commands : String) (now : Nat)
    (sessionId : Option String) : AddResult :=
  let command : CanvasCommand :=
    { id := freshId, commands := commands, timestamp := now, status := .pending
      sessionId := sessionId, error := none, clientIds := [] }
  let st1 := { st with commands := JMap.set st.commands freshId command }
  let r := broadcastCommand st1 command
  if r.sentCount > 0 then
    { state := { r.state with
        commands := JMap.set r.state.commands freshId { r.command with status := .sent } }
      id := freshId, sent := r.sent }
  else
    { state := r.state, id := freshId, sent := r.sent }

/-- `SessionManager.addClientToSession`; `now` is `Date.now()`. -/
def addClientToSession (st : ServerState) (sessionId clientId : String)
    (now : Nat) : ServerState :=
  match JMap.get st.sessions sessionId with
  | none => st
  | some session =>
      if clientId ∈ session.clientIds then st
      else
        let session1 := { session with clientIds := session.clientIds ++ [clientId]
                                       lastActivity := now }
        { st with sessions := JMap.set st.sessions sessionId session1 }

/-- `SessionManager.createSession` (the `transport` handle is omitted). -/
def createSession (st : ServerState) (sessionId : String) (now : Nat) : ServerState :=
  let session : Session :=
    { id := sessionId, createdAt := now, lastActivity := now, clientIds := [] }
  { st with sessions := JMap.set st.sessions sessionId session }

/-- The `for (const command of this.commands.values())` replay loop at the end
of `addWebSocketClient`, recursing over the command ids present at the start
of the loop and accumulating the push logs. -/
def replayPending : ServerState → List String →
    ServerState × List (String × PushMessage)
  | st, [] => (st, [])
  | st, commandId :: rest =>
      match JMap.get st.commands commandId with
      | none => replayPending st rest
      | some command =>
          if command.status = .pending then
            let r := broadcastCommand st command
            let rr := replayPending r.state rest
            (rr.1, r.sent ++ rr.2)
          else
            replayPending st rest

/-- Result of `addWebSocketClient`: the updated state and the push log of the
pending-command replay. -/
structure ConnectResult where
  state : ServerState
  sent : List (String × PushMessage)
deriving DecidableEq, Repr

/-- `CommandManager.addWebSocketClient`; `now` is `Date.now()`. -/
def addWebSocketClient (st : ServerState) (clientId : String)
    (wsOpen wsSendOk : Bool) (sessionId : Option String) (now : Nat) : ConnectResult :=
  let client : WSClient :=
    { id := clientId, wsOpen := wsOpen, wsSendOk := wsSendOk
      sessionId := sessionId, connectedAt := now }
  let st1 := { st with wsClients := JMap.set st.wsClients clientId client }
  let st2 := match sessionId with
    | some sid => addClientToSession st1 sid clientId now
    | none => st1
  let r := replayPending st2 (st2.commands.map Prod.fst)
  { state := r.1, sent := r.2 }

/-- `CommandManager.removeWebSocketClient`. -/
def removeWebSocketClient (st : ServerState) (clientId : String) : ServerState :=
  { st with wsClients := JMap.del st.wsClients clientId }

/-- `CommandManager.updateCommandStatus`.  `if (error)` is JavaScript
truthiness, so a missing or empty string leaves the `error` field alone. -/
def updateCommandStatus (st : ServerState) (commandId : String) (status : Status)
    (error : Option String) : ServerState × Bool :=
  match JMap.get st.commands commandId with
  | none => (st, false)
  | some command =>
      let command1 := { command with status := status }
      let command2 := match error with
        | some e => if e = "" then command1 else { command1 with error := some e }
        | none => command1
      ({ st with commands := JMap.set st.commands commandId command2 }, true)

/-- `CommandManager.markCommandConsumed`. -/
def markCommandConsumed (st : ServerState) (commandId : String) : ServerState × Bool :=
  match JMap.get st.commands commandId with
  | none => (st, false)
  | some command =>
      if command.status ≠ .pending then (st, false)
      else
        let command1 := { command with status := Status.executed }
        ({ st with commands := JMap.set st.commands commandId command1 }, true)

/-- The `command-consumed` branch of the WebSocket message handler: run
`markCommandConsumed` and reply with a `consume-ack` message. -/
def handleCommandConsumed (st : ServerState) (commandId : String) :
    ServerState × ConsumeAck :=
  let r := markCommandConsumed st commandId
  (r.1, { type := "consume-ack", commandId := commandId, success := r.2 })

/-- The `command-status` branch of the WebSocket message handler. -/
def handleCommandStatusMessage (st : ServerState) (commandId : String)
    (status : Status) (error : Option String) : ServerState :=
  (updateCommandStatus st commandId status error).1

/-- The `POST /command-status` handler; replies `{ success: updated }`. -/
def handleCommandStatusPost (st : ServerState) (commandId : String)
    (status : Status) (error : Option String) : ServerState × Bool :=
  updateCommandStatus st commandId status error

/-- `CommandManager.clearConsumedCommands`: the iterate-and-delete loop keeps
exactly the entries whose status is not `executed`. -/
def clearConsumedCommands (st : ServerState) : ServerState × Nat :=
  let kept := st.commands.filter fun p => p.2.status ≠ Status.executed
  ({ st with commands := kept }, st.commands.length - kept.length)

/-- `CommandManager.cleanupOldCommands`; `now` is `Date.now()` and the age
threshold is one hour (`60 * 60 * 1000` milliseconds). -/
def cleanupOldCommands (st : ServerState) (now : Nat) : ServerState × Nat :=
  let oneHourAgo := now - 60 * 60 * 1000
  let kept := st.commands.filter fun p =>
    ¬ (p.2.timestamp < oneHourAgo ∧ p.2.status ≠ Status.pending)
  ({ st with commands := kept }, st.commands.length - kept.length)

/-- `SessionManager.cleanupInactiveSessions` with its default 30 minute
timeout. -/
def cleanupInactiveSessions (st : ServerState) (now : Nat) : ServerState × Nat :=
  let kept := st.sessions.filter fun p => ¬ (now - p.2.lastActivity > 1800000)
  ({ st with sessions := kept }, st.sessions.length - kept.length)

/-- One tick of the `setInterval` maintenance task in `startServer`:
`cleanupOldCommands`, then `clearConsumedCommands`, then
`cleanupInactiveSessions`. -/
def periodicCleanup (st : ServerState) (now : Nat) : ServerState :=
  (cleanupInactiveSessions (clearConsumedCommands (cleanupOldCommands st now).1).1 now).1

/-- Whether a registered client survives a send attempt: the socket is open
and `send` does not throw. -/
def okClient (c : WSClient) : Bool := c.wsOpen && c.wsSendOk

/-! ## Basic lemmas about the `Map` model -/

theorem JMap.get_set_self {α : Type} (m : List (String × α)) (k : String) (v : α) :
    JMap.get (JMap.set m k v) k = some v := by
  induction m with
  | nil => simp [JMap.get, JMap.set]
  | cons p rest ih =>
      obtain ⟨k1, v1⟩ := p
      by_cases h : k1 = k
      · simp [JMap.set, h, JMap.get]
      · simp [JMap.set, h, JMap.get, ih]

theorem JMap.get_set_ne {α : Type} (m : List (String × α)) (k j : String) (v : α)
    (h : j ≠ k) : JMap.get (JMap.set m k v) j = JMap.get m j := by
  induction m with
  | nil => simp [JMap.get, JMap.set, Ne.symm h]
  | cons p rest ih =>
      obtain ⟨k1, v1⟩ := p
      by_cases h1 : k1 = k
      · subst h1
        simp [JMap.set, JMap.get, Ne.symm h]
      · by_cases h2 : k1 = j <;> simp [JMap.set, JMap.get, h1, h2, h, ih]

theorem JMap.set_set {α : Type} (m : List (String × α)) (k : String) (v w : α) :
    JMap.set (JMap.set m k v) k w = JMap.set m k w := by
  induction m with
  | nil => simp [JMap.set]
  | cons p rest ih =>
      obtain ⟨k1, v1⟩ := p
      by_cases h : k1 = k
      · simp [JMap.set, h]
      · simp [JMap.set, h, ih]

theorem JMap.get_mem {α : Type} (m : List (String × α)) (k : String) (v : α)
    (h : JMap.get m k = some v) : (k, v) ∈ m := by
  induction m with
  | nil => simp [JMap.get] at h
  | cons p rest ih =>
      obtain ⟨k1, v1⟩ := p
      by_cases h1 : k1 = k
      · subst h1
        simp [JMap.get] at h
        simp [h]
      · simp [JMap.get, h1] at h
        exact List.mem_cons_of_mem _ (ih h)

theorem JMap.mem_set {α : Type} (m : List (String × α)) (k : String) (v : α)
    (p : String × α) (h : p ∈ JMap.set m k v) : p = (k, v) ∨ p ∈ m := by
  induction m with
  | nil => simpa [JMap.set] using h
  | cons q rest ih =>
      obtain ⟨k1, v1⟩ := q
      by_cases h1 : k1 = k
      · simp [JMap.set, h1] at h
        rcases h with h | h
        · exact Or.inl h
        · exact Or.inr (List.mem_cons_of_mem _ h)
      · simp [JMap.set, h1] at h
        rcases h with h | h
        · exact Or.inr (by simp [h])
        · rcases ih h with h2 | h2
          · exact Or.inl h2
          · exact Or.inr (List.mem_cons_of_mem _ h2)

/-! ## The shape of one broadcast pass -/

/-- Closed form of the fan-out loop: the clients that pass both send checks
receive the message in registry order, the ones that fail either check are
deleted from the live registry, and `sentCount` counts the successes. -/
theorem broadcastLoop_spec (message : PushMessage) (entries : List (String × WSClient)) :
    ∀ (command : CanvasCommand) (wsClients : List (String × WSClient))
      (sentCount : Nat) (sent : List (String × PushMessage)),
    broadcastLoop message entries command wsClients sentCount sent =
      ({ command with clientIds :=
           command.clientIds ++ (entries.filter fun p => okClient p.2).map Prod.fst },
       (entries.filter fun p => ! okClient p.2).foldl (fun w p => JMap.del w p.1) wsClients,
       sentCount + (entries.filter fun p => okClient p.2).length,
       sent ++ (entries.filter fun p => okClient p.2).map fun p => (p.1, message)) := by
  induction entries with
  | nil => intro c w n s; simp [broadcastLoop]
  | cons p rest ih =>
      intro c w n s
      obtain ⟨cid, cl⟩ := p
      by_cases h1 : cl.wsOpen <;> by_cases h2 : cl.wsSendOk <;>
        simp [broadcastLoop, h1, h2, okClient, ih, List.filter_cons,
          Nat.add_assoc, Nat.add_comm, Nat.add_left_comm]

/-- The threaded command object after one broadcast: `clientIds` gains the
successful clients, in registry order; every other field is untouched. -/
theorem broadcastCommand_command (st : ServerState) (command : CanvasCommand) :
    (broadcastCommand st command).command =
      { command with clientIds := command.clientIds ++
          ((st.wsClients.filter fun p => okClient p.2).map Prod.fst) } := by
  simp [broadcastCommand, broadcastLoop_spec]

/-- The push log of one broadcast: one message per surviving client. -/
theorem broadcastCommand_sent (st : ServerState) (command : CanvasCommand) :
    (broadcastCommand st command).sent =
      (st.wsClients.filter fun p => okClient p.2).map
        fun p => (p.1, (⟨command.id, command.commands, command.timestamp⟩ : PushMessage)) := by
  simp [broadcastCommand, broadcastLoop_spec]

/-- The returned `sentCount` of one broadcast. -/
theorem broadcastCommand_sentCount (st : ServerState) (command : CanvasCommand) :
    (broadcastCommand st command).sentCount =
      (st.wsClients.filter fun p => okClient p.2).length := by
  simp [broadcastCommand, broadcastLoop_spec]

theorem broadcastCommand_state_commands (st : ServerState) (command : CanvasCommand) :
    (broadcastCommand st command).state.commands =
      JMap.set st.commands command.id (broadcastCommand st command).command := rfl

theorem broadcastCommand_state_sessions (st : ServerState) (command : CanvasCommand) :
    (broadcastCommand st command).state.sessions = st.sessions := rfl

theorem broadcastCommand_state_wsClients (st : ServerState) (command : CanvasCommand) :
    (broadcastCommand st command).state.wsClients =
      (st.wsClients.filter fun p => ! okClient p.2).foldl
        (fun w p => JMap.del w p.1) st.wsClients := by
  simp [broadcastCommand, broadcastLoop_spec]

/-- Folding `Map.delete` over a list of entries keeps exactly the bindings
whose key is not among the deleted ones. -/
theorem foldl_del_eq_filter {α : Type} (F : List (String × α)) :
    ∀ (W : List (String × α)),
    F.foldl (fun w p => JMap.del w p.1) W =
      W.filter fun q => decide (q.1 ∉ F.map Prod.fst) := by
  induction F with
  | nil => intro W; simp
  | cons p F ih =>
      intro W
      rw [List.foldl_cons, ih]
      simp only [JMap.del, List.filter_filter]
      apply List.filter_congr
      intro a _
      by_cases h1 : a.1 = p.1 <;> by_cases h2 : a.1 ∈ F.map Prod.fst <;>
        simp [h1, h2]

/-- With unique registry keys, deleting the failed entries from the registry
leaves exactly the clients that passed both send checks. -/
theorem foldl_del_failed (W : List (String × WSClient))
    (h : (W.map Prod.fst).Nodup) :
    (W.filter fun p => ! okClient p.2).foldl (fun w p => JMap.del w p.1) W =
      W.filter fun p => okClient p.2 := by
  rw [foldl_del_eq_filter]
  apply List.filter_congr
  intro q hq
  by_cases hok : okClient q.2
  · rw [hok]
    simp only [decide_eq_true_eq]
    intro hmem
    obtain ⟨r, hr, hr1⟩ := List.mem_map.mp hmem
    have hrW : r ∈ W := (List.mem_filter.mp hr).1
    have hrok : ¬ okClient r.2 = true := by
      have := (List.mem_filter.mp hr).2
      simpa using this
    have hreq : r = q := List.inj_on_of_nodup_map h hrW hq hr1
    rw [hreq] at hrok
    exact absurd hok hrok
  · have hok1 : okClient q.2 = false := by
      simpa using hok
    rw [hok1, decide_eq_false_iff_not, not_not]
    exact List.mem_map.mpr ⟨q, List.mem_filter.mpr ⟨hq, by simp [hok1]⟩, rfl⟩

/-- Lookup after a broadcast: the broadcast rewrites only the binding of the
command it was given. -/
theorem broadcast_get_after (st : ServerState) (command : CanvasCommand)
    (commandId : String) :
    JMap.get (broadcastCommand st command).state.commands commandId =
      if commandId = command.id then some (broadcastCommand st command).command
      else JMap.get st.commands commandId := by
  rw [broadcastCommand_state_commands]
  by_cases h : commandId = command.id
  · rw [if_pos h, h, JMap.get_set_self]
  · rw [if_neg h, JMap.get_set_ne _ _ _ _ h]

/-- Every ledger binding stores a command under its own id.  This holds in
every state the server reaches, because `addCommand` binds the fresh command
under `command.id`, the broadcaster rebinds a command under its own id, and no
operation rewrites an `id` field. -/
def WfCommands (st : ServerState) : Prop :=
  ∀ p ∈ st.commands, p.2.id = p.1

instance (st : ServerState) : Decidable (WfCommands st) :=
  inferInstanceAs (Decidable (∀ p ∈ st.commands, p.2.id = p.1))

theorem wf_broadcast (st : ServerState) (command : CanvasCommand)
    (hwf : WfCommands st) : WfCommands (broadcastCommand st command).state := by
  intro p hp
  rw [broadcastCommand_state_commands] at hp
  rcases JMap.mem_set _ _ _ _ hp with h | h
  · rw [h]
    show (broadcastCommand st command).command.id = command.id
    rw [broadcastCommand_command]
  · exact hwf p h

/-- A broadcast only ever appends to a `clientIds` list: the old list is a
prefix of the new one, for every ledger entry. -/
theorem broadcast_clientIds_grow (st : ServerState) (command : CanvasCommand)
    (halias : JMap.get st.commands command.id = some command)
    (commandId : String) (c c1 : CanvasCommand)
    (h1 : JMap.get st.commands commandId = some c)
    (h2 : JMap.get (broadcastCommand st command).state.commands commandId = some c1) :
    c.clientIds <+: c1.clientIds := by
  rw [broadcast_get_after] at h2
  by_cases hid : commandId = command.id
  · rw [if_pos hid] at h2
    rw [hid, halias] at h1
    have hc : c = command := (Option.some.inj h1).symm
    have hc1 : c1 = (broadcastCommand st command).command := (Option.some.inj h2).symm
    rw [hc, hc1, broadcastCommand_command]
    exact List.prefix_append _ _
  · rw [if_neg hid, h1] at h2
    rw [Option.some.inj h2]

theorem wf_replay : ∀ (ids : List String) (st : ServerState), WfCommands st →
    WfCommands (replayPending st ids).1 := by
  intro ids
  induction ids with
  | nil => intro st hwf; simpa [replayPending] using hwf
  | cons id rest ih =>
      intro st hwf
      cases hg : JMap.get st.commands id with
      | none => simpa only [replayPending, hg] using ih st hwf
      | some cmd =>
          by_cases hp : cmd.status = Status.pending
          · simpa only [replayPending, hg, hp, if_pos] using
              ih (broadcastCommand st cmd).state (wf_broadcast st cmd hwf)
          · simpa only [replayPending, hg, hp, if_neg] using ih st hwf

/-- The pending-command replay loop only ever appends to `clientIds` lists. -/
theorem replay_clientIds_grow : ∀ (ids : List String) (st : ServerState),
    WfCommands st → ∀ (commandId : String) (c : CanvasCommand),
    JMap.get st.commands commandId = some c →
    ∃ c1, JMap.get (replayPending st ids).1.commands commandId = some c1 ∧
      c.clientIds <+: c1.clientIds := by
  intro ids
  induction ids with
  | nil =>
      intro st _ commandId c h
      exact ⟨c, by simpa [replayPending] using h, List.prefix_rfl⟩
  | cons id rest ih =>
      intro st hwf commandId c h
      cases hg : JMap.get st.commands id with
      | none =>
          obtain ⟨c1, h1, hpre⟩ := ih st hwf commandId c h
          exact ⟨c1, by simpa only [replayPending, hg] using h1, hpre⟩
      | some cmd =>
          by_cases hp : cmd.status = Status.pending
          · have hid : cmd.id = id := hwf (id, cmd) (JMap.get_mem _ _ _ hg)
            have halias : JMap.get st.commands cmd.id = some cmd := by
              rw [hid]; exact hg
            have hafter : ∃ c2,
                JMap.get (broadcastCommand st cmd).state.commands commandId = some c2 ∧
                c.clientIds <+: c2.clientIds := by
              by_cases hcid : commandId = cmd.id
              · refine ⟨(broadcastCommand st cmd).command, ?_, ?_⟩
                · rw [broadcast_get_after, if_pos hcid]
                · have hc : c = cmd := by
                    rw [hcid, halias] at h
                    exact (Option.some.inj h).symm
                  rw [hc, broadcastCommand_command]
                  exact List.prefix_append _ _
              · exact ⟨c, by rw [broadcast_get_after, if_neg hcid]; exact h,
                  List.prefix_rfl⟩
            obtain ⟨c2, h2, hpre⟩ := hafter
            obtain ⟨c3, h3, hpre2⟩ :=
              ih (broadcastCommand st cmd).state (wf_broadcast st cmd hwf) commandId c2 h2
            exact ⟨c3, by simpa only [replayPending, hg, hp, if_pos] using h3,
              hpre.trans hpre2⟩
          · obtain ⟨c1, h1, hpre⟩ := ih st hwf commandId c h
            exact ⟨c1, by simpa only [replayPending, hg, hp, if_neg] using h1, hpre⟩

/-! ## Concrete states used by counterexamples and witnesses -/

/-- A ledger holding one `sent` command, delivered to client `A` at time 0. -/
def stSentCmd : ServerState :=
  ⟨[("c1", ⟨"c1", "clear()", 0, Status.sent, none, none, ["A"]⟩)], [], []⟩

/-- A ledger holding one `pending` command. -/
def stPendingCmd : ServerState :=
  ⟨[("c1", ⟨"c1", "clear()", 0, Status.pending, none, none, []⟩)], [], []⟩

/-- A ledger holding one `executed` command. -/
def stExecCmd : ServerState :=
  ⟨[("c1", ⟨"c1", "clear()", 0, Status.executed, none, none, []⟩)], [], []⟩

/-- A ledger holding one freshly-`executed` command (age zero at time 100). -/
def stYoungExec : ServerState :=
  ⟨[("e1", ⟨"e1", "clear()", 100, Status.executed, none, none, []⟩)], [], []⟩

/-- A `pending` command created at time 0 (two hours old at time 7200000). -/
def pendCmd : CanvasCommand := ⟨"p1", "clear()", 0, Status.pending, none, none, []⟩

/-- A ledger holding only `pendCmd`. -/
def stOldPend : ServerState := ⟨[("p1", pendCmd)], [], []⟩

/-! ## C1 -/

/-- C1 fails on the code: `markCommandConsumed` refuses a command whose
current state is `Sent` (here with delivered client `A`), returning false and
leaving the state untouched, although the claim requires the `Pending`-or-
`Sent` transition to `Executed`. -/
theorem claim1_counterexample :
    statusOf stSentCmd "c1" = some Status.sent ∧
    (markCommandConsumed stSentCmd "c1").2 = false ∧
    (markCommandConsumed stSentCmd "c1").1 = stSentCmd := by decide

/-- C1 (amended): `markCommandConsumed` advances a command to `Executed` if
and only if its current state is `Pending`; it returns false as a no-op when
the command is missing or in any other state (`Sent` included), and a second
call after a successful one returns false. -/
theorem claim1_theorem (st : ServerState) (commandId : String) :
    ((markCommandConsumed st commandId).2 = true ↔
      statusOf st commandId = some Status.pending)
    ∧ ((markCommandConsumed st commandId).2 = false →
      (markCommandConsumed st commandId).1 = st)
    ∧ ((markCommandConsumed st commandId).2 = true →
      statusOf (markCommandConsumed st commandId).1 commandId = some Status.executed ∧
      (markCommandConsumed (markCommandConsumed st commandId).1 commandId).2 = false) := by
  cases hget : JMap.get st.commands commandId with
  | none => simp [markCommandConsumed, statusOf, hget]
  | some c =>
      by_cases hc : c.status = Status.pending
      · refine ⟨?_, ?_, fun _ => ⟨?_, ?_⟩⟩
        · simp [markCommandConsumed, statusOf, hget, hc]
        · simp [markCommandConsumed, hget, hc]
        · simp [markCommandConsumed, statusOf, hget, hc, JMap.get_set_self]
        · simp [markCommandConsumed, hget, hc, JMap.get_set_self]
      · simp [markCommandConsumed, statusOf, hget, hc]

/-- C1 witness: on a concrete pending command the consumption succeeds,
reaches `Executed`, and a repeated call returns false. -/
theorem claim1_witness :
    statusOf (markCommandConsumed stPendingCmd "c1").1 "c1" = some Status.executed ∧
    (markCommandConsumed (markCommandConsumed stPendingCmd "c1").1 "c1").2 = false :=
  (claim1_theorem stPendingCmd "c1").2.2 (by decide)

/-! ## C2 -/

/-- C2 fails on the code twice over: the age-based purge deletes a `Sent`
entry that is older than one hour, and the consumed-command sweep of the same
periodic task deletes an `Executed` entry that is younger than the
threshold. -/
theorem claim2_counterexample :
    statusOf stSentCmd "c1" = some Status.sent ∧
    JMap.get (cleanupOldCommands stSentCmd 3600001).1.commands "c1" = none ∧
    statusOf stYoungExec "e1" = some Status.executed ∧
    JMap.get (periodicCleanup stYoungExec 100).commands "e1" = none := by decide

/-- C2 (amended): the age-based purge keeps exactly the entries that are
younger than one hour or `Pending` (so an old `Sent` entry is deleted); the
consumed-command sweep deletes exactly the `Executed` entries regardless of
age; and the full periodic task never deletes a `Pending` entry. -/
theorem claim2_theorem (st : ServerState) (now : Nat) (commandId : String)
    (c : CanvasCommand) :
    ((commandId, c) ∈ (cleanupOldCommands st now).1.commands ↔
      (commandId, c) ∈ st.commands ∧
      ¬ (c.timestamp < now - 60 * 60 * 1000 ∧ c.status ≠ Status.pending))
    ∧ ((commandId, c) ∈ (clearConsumedCommands st).1.commands ↔
      (commandId, c) ∈ st.commands ∧ c.status ≠ Status.executed)
    ∧ (c.status = Status.pending →
      ((commandId, c) ∈ (periodicCleanup st now).commands ↔
        (commandId, c) ∈ st.commands)) := by
  refine ⟨?_, ?_, fun hp => ?_⟩
  · simp only [cleanupOldCommands, List.mem_filter, decide_eq_true_eq]
  · simp [clearConsumedCommands, List.mem_filter]
  · simp [periodicCleanup, cleanupInactiveSessions, clearConsumedCommands,
      cleanupOldCommands, List.mem_filter, hp]

/-- C2 witness: a two-hour-old `Pending` entry survives the periodic task. -/
theorem claim2_witness :
    ("p1", pendCmd) ∈ (periodicCleanup stOldPend 7200000).commands ↔
      ("p1", pendCmd) ∈ stOldPend.commands :=
  (claim2_theorem stOldPend 7200000 "p1" pendCmd).2.2 rfl

/-! ## C5 -/

/-- C5 fails on the code: the `/command-status` endpoint (and the identical
WebSocket branch) hands the caller-supplied status straight to
`updateCommandStatus`, which moves an `Executed` (terminal) command back to
`Pending`. -/
theorem claim5_counterexample :
    statusOf stExecCmd "c1" = some Status.executed ∧
    statusOf (handleCommandStatusPost stExecCmd "c1" Status.pending none).1 "c1" =
      some Status.pending := by decide

/-- C5 (amended): `updateCommandStatus`, reachable from the `command-status`
WebSocket message and the `/command-status` endpoint, unconditionally
overwrites the state of any existing command with the caller-supplied status
— including moves out of a terminal state — and reports true; on a missing
command it reports false and changes nothing. -/
theorem claim5_theorem (st : ServerState) (commandId : String) (status : Status)
    (e : Option String) :
    ((JMap.get st.commands commandId).isSome →
      (handleCommandStatusPost st commandId status e).2 = true ∧
      statusOf (handleCommandStatusPost st commandId status e).1 commandId =
        some status)
    ∧ (JMap.get st.commands commandId = none →
      handleCommandStatusPost st commandId status e = (st, false)) := by
  cases hget : JMap.get st.commands commandId with
  | none => simp [handleCommandStatusPost, updateCommandStatus, hget]
  | some c =>
      refine ⟨fun _ => ⟨?_, ?_⟩, by simp [hget]⟩
      · simp [handleCommandStatusPost, updateCommandStatus, hget]
      · cases e with
        | none =>
            simp [handleCommandStatusPost, updateCommandStatus, hget, statusOf,
              JMap.get_set_self]
        | some s =>
            by_cases hs : s = "" <;>
              simp [handleCommandStatusPost, updateCommandStatus, hget, statusOf,
                JMap.get_set_self, hs]

/-- C5 witness: on a concrete executed command the endpoint reports true and
the state becomes the supplied one. -/
theorem claim5_witness :
    (handleCommandStatusPost stExecCmd "c1" Status.sent none).2 = true ∧
    statusOf (handleCommandStatusPost stExecCmd "c1" Status.sent none).1 "c1" =
      some Status.sent :=
  (claim5_theorem stExecCmd "c1" Status.sent none).1 (by decide)

/-! ## C8 -/

/-- C8 fails on the code: `addCommand` accepts the empty payload and stores a
pending command for it instead of rejecting it. -/
theorem claim8_counterexample :
    (addCommand ServerState.empty "c1" "" 0 none).id = "c1" ∧
    JMap.get (addCommand ServerState.empty "c1" "" 0 none).state.commands "c1" =
      some ⟨"c1", "", 0, Status.pending, none, none, []⟩ := by decide

/-- C8 (amended): `addCommand` performs no payload validation — for every
payload, the empty string included, it succeeds and inserts a new command
whose `id` is the fresh uuid and whose text is the payload; with zero
connected clients the inserted entry still has state `Pending` and empty
`deliveredTo` when the call returns. -/
theorem claim8_theorem (st : ServerState) (freshId payload : String) (now : Nat)
    (sessionId : Option String) :
    ((addCommand st freshId payload now sessionId).id = freshId
      ∧ ∃ c, JMap.get (addCommand st freshId payload now sessionId).state.commands
          freshId = some c ∧ c.id = freshId ∧ c.commands = payload)
    ∧ (st.wsClients = [] →
      (addCommand st freshId payload now sessionId).state.commands =
        JMap.set st.commands freshId
          ⟨freshId, payload, now, Status.pending, sessionId, none, []⟩) := by
  constructor
  · constructor
    · simp only [addCommand]
      split <;> rfl
    · simp only [addCommand]
      split <;>
        refine ⟨_, by rw [broadcastCommand_state_commands, JMap.set_set]; exact JMap.get_set_self _ _ _, ?_, ?_⟩ <;>
        simp [broadcastCommand_command]
  · intro hws
    simp only [addCommand, broadcastCommand_sentCount, hws]
    simp [broadcastCommand_state_commands, broadcastCommand_command, JMap.set_set]

/-- C8 witness: with no clients connected the inserted entry is exactly the
pending command with empty `deliveredTo`. -/
theorem claim8_witness :
    (addCommand ServerState.empty "c2" "clear()" 3 none).state.commands =
      JMap.set ServerState.empty.commands "c2"
        ⟨"c2", "clear()", 3, Status.pending, none, none, []⟩ :=
  (claim8_theorem ServerState.empty "c2" "clear()" 3 none).2 rfl

/-! ## C9 -/

/-- C9: a `command-consumed` acknowledgment naming a missing or already
terminal command yields the reply
`{ type: "consume-ack", commandId, success: false }` and leaves the whole
state unchanged; the handler is a total function, so no exception can be
raised. -/
theorem claim9_theorem (st : ServerState) (commandId : String)
    (h : JMap.get st.commands commandId = none ∨
      ∃ c, JMap.get st.commands commandId = some c ∧
        (c.status = Status.executed ∨ c.status = Status.error)) :
    handleCommandConsumed st commandId =
      (st, ⟨"consume-ack", commandId, false⟩) := by
  rcases h with h | ⟨c, hget, h2 | h2⟩ <;>
    simp [handleCommandConsumed, markCommandConsumed, *]

/-- C9 witness: a stale acknowledgment against a concrete executed command. -/
theorem claim9_witness :
    handleCommandConsumed stExecCmd "c1" = (stExecCmd, ⟨"consume-ack", "c1", false⟩) :=
  claim9_theorem stExecCmd "c1"
    (Or.inr ⟨⟨"c1", "clear()", 0, Status.executed, none, none, []⟩, by decide, Or.inl rfl⟩)

/-! ## C10 -/

/-- C10: `addClientToSession` with a session id that is not registered is a
silent no-op — the returned state is exactly the input state, so no session
is created and nothing is modified; totality of the function rules out an
exception. -/
theorem claim10_theorem (st : ServerState) (sessionId clientId : String) (now : Nat)
    (h : JMap.get st.sessions sessionId = none) :
    addClientToSession st sessionId clientId now = st := by
  simp [addClientToSession, h]

/-- C10 witness: associating a client on the empty state changes nothing. -/
theorem claim10_witness :
    addClientToSession ServerState.empty "s1" "A" 5 = ServerState.empty :=
  claim10_theorem ServerState.empty "s1" "A" 5 rfl

/-! ## The Scenario A/B chain: enqueue with no clients, then connect clients -/

/-- The Scenario A payload of the spec. -/
def scenarioPayload : String := "clear()\nfr(10,10,20,20)"

/-- Scenario A: enqueue with zero clients connected. -/
def scenarioAdd : AddResult := addCommand ServerState.empty "c1" scenarioPayload 0 none

/-- Scenario B: connect one healthy client `A` after Scenario A. -/
def scenarioConnA : ConnectResult :=
  addWebSocketClient scenarioAdd.state "A" true true none 1

/-- Connect a second healthy client `B` after Scenario B. -/
def scenarioConnB : ConnectResult :=
  addWebSocketClient scenarioConnA.state "B" true true none 2

/-! ## C3 -/

/-- C3 fails on the code: after Scenario A the single connecting client does
receive exactly one push with the command's id and payload, but the replay in
`addWebSocketClient` never advances the entry, so its state remains `Pending`
rather than becoming `Sent`. -/
theorem claim3_counterexample :
    scenarioConnA.sent = [("A", ⟨"c1", scenarioPayload, 0⟩)] ∧
    statusOf scenarioConnA.state "c1" = some Status.pending ∧
    statusOf scenarioConnA.state "c1" ≠ some Status.sent := by decide

/-- C3 (amended): if a command is enqueued while zero clients are connected
(so it is `Pending`) and then one client connects, that client receives
exactly one push message with the same id and payload, but the ledger state
still reads `Pending` after the delivery — only the broadcast issued inside
`addCommand` ever sets `Sent`. -/
theorem claim3_theorem (payload commandId clientId : String) (t1 t2 : Nat) :
    statusOf (addCommand ServerState.empty commandId payload t1 none).state commandId =
      some Status.pending
    ∧ (addWebSocketClient (addCommand ServerState.empty commandId payload t1 none).state
        clientId true true none t2).sent = [(clientId, ⟨commandId, payload, t1⟩)]
    ∧ statusOf (addWebSocketClient (addCommand ServerState.empty commandId payload t1 none).state
        clientId true true none t2).state commandId = some Status.pending := by
  simp [addCommand, addWebSocketClient, replayPending, broadcastCommand, broadcastLoop,
    JMap.set, JMap.get, statusOf, ServerState.empty]

/-! ## C4 -/

/-- C4 fails on the code: when client `B` connects, the pending command is
re-broadcast through the general fan-out, which also pushes it to the
already-connected client `A` (who had already received it when connecting),
so the delivery is neither to the new client alone nor at most once per
connection. -/
theorem claim4_counterexample :
    (JMap.get scenarioConnA.state.wsClients "A").isSome ∧
    scenarioConnA.sent = [("A", ⟨"c1", scenarioPayload, 0⟩)] ∧
    scenarioConnB.sent =
      [("A", ⟨"c1", scenarioPayload, 0⟩), ("B", ⟨"c1", scenarioPayload, 0⟩)] := by decide

/-- C4 (amended): when a new client connects, every currently `Pending`
command is re-broadcast through the general fan-out to all connected clients
— previously connected ones included — so a client that already received a
still-pending command receives it again at the next connect event. -/
theorem claim4_theorem (payload commandId cid1 cid2 : String) (t1 t2 t3 : Nat)
    (h : cid1 ≠ cid2) :
    (addWebSocketClient (addWebSocketClient
        (addCommand ServerState.empty commandId payload t1 none).state
        cid1 true true none t2).state cid2 true true none t3).sent =
      [(cid1, ⟨commandId, payload, t1⟩), (cid2, ⟨commandId, payload, t1⟩)] := by
  simp [addCommand, addWebSocketClient, replayPending, broadcastCommand, broadcastLoop,
    JMap.set, JMap.get, ServerState.empty, h]

/-- C4 witness: the double delivery realised with clients `A` and `B`. -/
theorem claim4_witness :
    (addWebSocketClient (addWebSocketClient
        (addCommand ServerState.empty "c1" "clear()" 0 none).state
        "A" true true none 1).state "B" true true none 2).sent =
      [("A", ⟨"c1", "clear()", 0⟩), ("B", ⟨"c1", "clear()", 0⟩)] :=
  claim4_theorem "clear()" "c1" "A" "B" 0 1 2 (by decide)

/-! ## C6 -/

/-- C6: one broadcast call touches exactly the registry snapshot taken at the
start of the call — every client registered at that moment either receives
the message (its id appears in the push log, once) or is removed from the
registry; a failed client is removed and the loop still delivers to every
remaining healthy client; and the returned count equals the number of
successful sends. -/
theorem claim6_theorem (st : ServerState) (command : CanvasCommand)
    (h : (st.wsClients.map Prod.fst).Nodup) :
    (broadcastCommand st command).sent =
      (st.wsClients.filter fun p => okClient p.2).map
        (fun p => (p.1, (⟨command.id, command.commands, command.timestamp⟩ : PushMessage)))
    ∧ (broadcastCommand st command).sentCount =
      (st.wsClients.filter fun p => okClient p.2).length
    ∧ (broadcastCommand st command).state.wsClients =
      st.wsClients.filter fun p => okClient p.2 := by
  refine ⟨broadcastCommand_sent st command, broadcastCommand_sentCount st command, ?_⟩
  rw [broadcastCommand_state_wsClients]
  exact foldl_del_failed st.wsClients h

/-- A registry with two healthy clients and two failing ones (one socket that
is no longer open, one whose send throws). -/
def stW6 : ServerState :=
  ⟨[], [("A", ⟨"A", true, true, none, 0⟩), ("B", ⟨"B", true, false, none, 0⟩),
        ("C", ⟨"C", false, true, none, 0⟩), ("D", ⟨"D", true, true, none, 0⟩)], []⟩

/-- A pending command used for the C6 witness. -/
def cmdW6 : CanvasCommand := ⟨"c9", "l(1,2,3,4)", 7, Status.pending, none, none, []⟩

/-- C6 witness: broadcast over the mixed registry `stW6`. -/
theorem claim6_witness :
    (broadcastCommand stW6 cmdW6).sent =
      (stW6.wsClients.filter fun p => okClient p.2).map
        (fun p => (p.1, (⟨cmdW6.id, cmdW6.commands, cmdW6.timestamp⟩ : PushMessage)))
    ∧ (broadcastCommand stW6 cmdW6).sentCount =
      (stW6.wsClients.filter fun p => okClient p.2).length
    ∧ (broadcastCommand stW6 cmdW6).state.wsClients =
      stW6.wsClients.filter fun p => okClient p.2 :=
  claim6_theorem stW6 cmdW6 (by decide)

/-! ## C7 -/

/-- C7 fails on the code: after the enqueue-connect-connect chain the
`clientIds` list of the command is `["A", "A", "B"]` — client `A` appears
twice, so `deliveredTo` is not a set. -/
theorem claim7_counterexample :
    clientIdsOf scenarioConnB.state "c1" = some ["A", "A", "B"] := by decide

/-- Commands are untouched by a client-session association. -/
theorem addClientToSession_commands (st : ServerState) (sid cid : String) (now : Nat) :
    (addClientToSession st sid cid now).commands = st.commands := by
  unfold addClientToSession
  cases JMap.get st.sessions sid with
  | none => rfl
  | some s => by_cases h : cid ∈ s.clientIds <;> simp [h]

theorem wf_addClientToSession (st : ServerState) (sid cid : String) (now : Nat)
    (hwf : WfCommands st) : WfCommands (addClientToSession st sid cid now) := by
  intro p hp
  rw [addClientToSession_commands] at hp
  exact hwf p hp

/-- C7 (amended): `deliveredTo` (`clientIds`) only grows — both the broadcast
fan-out and the connect-time replay leave the previous list as a prefix of
the new one for every ledger entry — but it is an append-only list, not a
set, and may hold the same client id more than once. -/
theorem claim7_theorem :
    (∀ (st : ServerState) (command : CanvasCommand),
      JMap.get st.commands command.id = some command →
      ∀ (commandId : String) (c c1 : CanvasCommand),
        JMap.get st.commands commandId = some c →
        JMap.get (broadcastCommand st command).state.commands commandId = some c1 →
        c.clientIds <+: c1.clientIds)
    ∧ (∀ (st : ServerState), WfCommands st →
      ∀ (clientId : String) (wsOpen wsSendOk : Bool) (sessionId : Option String)
        (now : Nat) (commandId : String) (c c1 : CanvasCommand),
        JMap.get st.commands commandId = some c →
        JMap.get (addWebSocketClient st clientId wsOpen wsSendOk sessionId now).state.commands
          commandId = some c1 →
        c.clientIds <+: c1.clientIds) := by
  constructor
  · intro st command halias commandId c c1 h1 h2
    exact broadcast_clientIds_grow st command halias commandId c c1 h1 h2
  · intro st hwf clientId o sOk sid now commandId c c1 h1 h2
    have key : ∀ (st2 : ServerState), st2.commands = st.commands → WfCommands st2 →
        JMap.get (replayPending st2 (st2.commands.map Prod.fst)).1.commands commandId =
          some c1 →
        c.clientIds <+: c1.clientIds := by
      intro st2 hc hwf2 hget
      obtain ⟨c1x, hg, hpre⟩ := replay_clientIds_grow (st2.commands.map Prod.fst) st2 hwf2
        commandId c (by rw [hc]; exact h1)
      rw [hg] at hget
      rw [← Option.some.inj hget]
      exact hpre
    cases sid with
    | none =>
        let w1 := JMap.set st.wsClients clientId ⟨clientId, o, sOk, none, now⟩
        exact key { st with wsClients := w1 } rfl hwf h2
    | some s =>
        let w1 := JMap.set st.wsClients clientId ⟨clientId, o, sOk, some s, now⟩
        exact key (addClientToSession { st with wsClients := w1 } s clientId now)
          (addClientToSession_commands _ s clientId now)
          (wf_addClientToSession _ s clientId now hwf) h2

/-- A pending command already delivered to `A`, with one healthy client `B`
registered, used for the C7 witness. -/
def cmdW7 : CanvasCommand := ⟨"c1", "clear()", 0, Status.pending, none, none, ["A"]⟩

/-- The C7 witness state holding `cmdW7` and client `B`. -/
def stW7 : ServerState := ⟨[("c1", cmdW7)], [("B", ⟨"B", true, true, none, 0⟩)], []⟩

/-- C7 witness: when client `C` connects to `stW7`, the replay appends `B` and
`C` to the delivered list and the old list is a prefix of the new one. -/
theorem claim7_witness :
    cmdW7.clientIds <+: ["A", "B", "C"] :=
  (claim7_theorem).2 stW7 (by decide) "C" true true none 5 "c1" cmdW7
    ⟨"c1", "clear()", 0, Status.pending, none, none, ["A", "B", "C"]⟩
    (by decide) (by decide)
